import Mathlib

/-!
Shallow embedding of `src/synchronized/__init__.py`.

The module provides re-entrant per-target locking:
* `ObjectLock._lock` — a class-level registry `RLock` guarding the whole body
  of `ObjectLock._get_lock`;
* `ObjectLock._get_lock(obj)` — under the registry lock, checks whether `obj`
  already carries the `__ObjectLock__` attribute, attaches a fresh `RLock()`
  if absent, and returns the attribute's value;
* `ObjectLock.__enter__ / __exit__` — acquire/release of the resolved lock
  around a `with` block;
* `synchronized_object`, `synchronized_method`, `synchronized_func` — the
  three wrappers, each running the wrapped computation inside
  `with ObjectLock(key):` where the key is the object itself, the receiver
  `self`, or the function object respectively;
* `synchronized(obj)` — dispatch on `type(obj)` among `FunctionType`,
  `MethodType` and `InstanceType`, falling through (returning `None`) for any
  other kind.

Embedding choices:
* Targets are runtime identities, modelled as `Nat`.  The `__ObjectLock__`
  attribute slot of each identity is the `World.attr` map; `hasattr` is
  `(attr obj).isSome`, `setattr` updates the map, `getattr` reads it.  This
  total update is faithful for function objects and plain instances; Python
  2's `AttributeError` on attribute assignment to a bound method is modelled
  explicitly by `readSlot`, `setSlot` and `ObjectLock._get_lock_py` below.
* `RLock()` objects are drawn from a pool indexed by `LockId = Nat`;
  `World.nextLock` is the fresh-object allocator and every not-yet-allocated
  lock is in its initial (free) state, which the well-formedness predicate
  `World.WF` records.
* An `RLock` state is an optional owner thread plus a hold count; `acquire`
  by a thread that may proceed (lock free or already owned by it) increments
  the count, `release` decrements it and frees the lock at count zero.
* The body of `_get_lock` runs entirely under the class-level registry lock
  `ObjectLock._lock`, so concurrent executions of `_get_lock` are equivalent
  to some sequential order of atomic executions; the embedding therefore
  treats one `_get_lock` call as one atomic step on the `World`.
* A wrapped computation is its outcome: `Except ε α` (`Except.error` is a
  raised exception).  The `with` statement (`__enter__`, body, `__exit__` on
  both the normal and the exceptional path) is `withLock`.
-/

abbrev Target := Nat
abbrev LockId := Nat
abbrev ThreadId := Nat

/-- State of one `multiprocessing.RLock()`: the owning thread, if any, and the
recursive hold count. -/
structure RLock where
  owner : Option ThreadId
  count : Nat
deriving DecidableEq, Repr

/-- A freshly constructed `RLock()` is free. -/
def RLock.init : RLock := { owner := none, count := 0 }

/-- The calling thread can proceed through `acquire` without blocking:
the lock is free or the caller already holds it (re-entrancy). -/
def RLock.canAcquire (tid : ThreadId) (lk : RLock) : Prop :=
  lk.owner = none ∨ lk.owner = some tid

instance (tid : ThreadId) (lk : RLock) : Decidable (RLock.canAcquire tid lk) := by
  unfold RLock.canAcquire; infer_instance

/-- `acquire()` by a thread that may proceed: take ownership, bump the count. -/
def RLock.acquire (tid : ThreadId) (lk : RLock) : RLock :=
  { owner := some tid, count := lk.count + 1 }

/-- `release()`: drop one hold; the lock becomes free at count zero. -/
def RLock.release (lk : RLock) : RLock :=
  if lk.count ≤ 1 then RLock.init else { owner := lk.owner, count := lk.count - 1 }

/-- Sanity of one lock state: it is ownerless exactly when nobody holds it. -/
def RLock.Sane (lk : RLock) : Prop := lk.owner = none ↔ lk.count = 0

/-- Global state of the module: the `__ObjectLock__` attribute slot of every
target identity, the allocator for fresh `RLock()` objects, and the state of
every lock object. -/
structure World where
  attr : Target → Option LockId
  nextLock : LockId
  locks : LockId → RLock

/-- The state at import time: no target carries the attribute, no lock
allocated, every lock object in the pool is in its initial state. -/
def World.init : World :=
  { attr := fun _ => none, nextLock := 0, locks := fun _ => RLock.init }

/-- Well-formedness, true initially and preserved by every operation:
attached lock ids are allocated; distinct targets never share an attached
lock id; unallocated locks are in the initial state; every lock is sane. -/
def World.WF (w : World) : Prop :=
  (∀ t l, w.attr t = some l → l < w.nextLock) ∧
  (∀ t1 t2 l, w.attr t1 = some l → w.attr t2 = some l → t1 = t2) ∧
  (∀ l, w.nextLock ≤ l → w.locks l = RLock.init) ∧
  (∀ l, (w.locks l).Sane)

namespace ObjectLock

/-- `ObjectLock._get_lock(obj)`, the registry lookup.  The whole body runs
under the class-level `ObjectLock._lock`, hence one atomic step:
`if not hasattr(obj, '__ObjectLock__'): setattr(obj, '__ObjectLock__', RLock())`;
`return getattr(obj, '__ObjectLock__')`. -/
def _get_lock (obj : Target) (w : World) : LockId × World :=
  match w.attr obj with
  | some l => (l, w)
  | none =>
      let l := w.nextLock
      (l, { w with
              attr := fun t => if t = obj then some l else w.attr t,
              nextLock := w.nextLock + 1 })

/-- The lock id `_get_lock` resolves for `obj` in world `w`. -/
def lockOf (obj : Target) (w : World) : LockId := (_get_lock obj w).1

/-- `ObjectLock.__init__(self, obj)`: `self.lock = ObjectLock._get_lock(obj)`.
The constructed instance is identified with the lock id it stores. -/
def construct (obj : Target) (w : World) : LockId × World := _get_lock obj w

end ObjectLock

/-- `self.lock.acquire()` — the `__enter__` step on the world. -/
def World.acquireAt (w : World) (tid : ThreadId) (l : LockId) : World :=
  { w with locks := fun l2 => if l2 = l then (w.locks l2).acquire tid else w.locks l2 }

/-- `self.lock.release()` — the `__exit__` step on the world. -/
def World.releaseAt (w : World) (l : LockId) : World :=
  { w with locks := fun l2 => if l2 = l then (w.locks l2).release else w.locks l2 }

/-- The `with` statement over an `ObjectLock` instance holding lock `l`:
`__enter__` acquires, the body produces its outcome, `__exit__` releases on
the normal path and on the exceptional path alike, and the outcome (return
value or re-raised exception) propagates unchanged. -/
def withLock (tid : ThreadId) (l : LockId) (body : Except ε α) (w : World) :
    Except ε α × World :=
  let w1 := w.acquireAt tid l
  match body with
  | Except.ok v => (Except.ok v, w1.releaseAt l)
  | Except.error e => (Except.error e, w1.releaseAt l)

/-- `with ObjectLock(obj): body` — construct the `ObjectLock` (which resolves
the target's lock via `_get_lock`), then run the body under it. -/
def withObjectLock (tid : ThreadId) (obj : Target) (body : Except ε α) (w : World) :
    Except ε α × World :=
  let p := ObjectLock.construct obj w
  withLock tid p.1 body p.2

/-- `synchronized_object(obj)`: returns `ObjectLock(obj)`. -/
def synchronized_object (obj : Target) (w : World) : LockId × World :=
  ObjectLock.construct obj w

/-- `synchronized_method(func)`: the wrapper `with_synchronization(self, *args)`
runs `func(self, *args)` inside `with ObjectLock(self):` — the lock key is the
receiver at call time. -/
def synchronized_method (func : Target → List Nat → Except ε α) :
    ThreadId → Target → List Nat → World → Except ε α × World :=
  fun tid self args w => withObjectLock tid self (func self args) w

/-- `synchronized_func(func)`: the wrapper `with_synchronization(*args)` runs
`func(*args)` inside `with ObjectLock(func):` — the lock key is the function
object itself.  `funcId` is the function object's identity, `funcImpl` its
behaviour. -/
def synchronized_func (funcId : Target) (funcImpl : List Nat → Except ε α) :
    ThreadId → List Nat → World → Except ε α × World :=
  fun tid args w => withObjectLock tid funcId (funcImpl args) w

/-- The result of `type(obj)` as far as `synchronized` inspects it. -/
inductive PyType where
  | functionType
  | methodType
  | instanceType
  | otherType
deriving DecidableEq, Repr

/-- A Python value as `synchronized` sees it: its type, its identity, its
behaviour when called as a plain function and when called as a method. -/
structure PyVal (ε α : Type) where
  ty : PyType
  id : Target
  callFn : List Nat → Except ε α
  callMeth : Target → List Nat → Except ε α

/-- What `synchronized(obj)` returns: a wrapped function, a wrapped method,
the `ObjectLock` instance from `synchronized_object`, or (implicitly) `None`
when no branch matched — the `Option` in `synchronized` below. -/
inductive SyncResult (ε α : Type) where
  | func (wrapped : ThreadId → List Nat → World → Except ε α × World)
  | method (wrapped : ThreadId → Target → List Nat → World → Except ε α × World)
  | object (objectLock : LockId)

/-- `synchronized(obj)`: dispatch on `type(obj)`.  A `FunctionType` goes to
`synchronized_func`, a `MethodType` to `synchronized_method`, an
`InstanceType` to `synchronized_object` (which constructs the `ObjectLock`
immediately, touching the world); anything else falls off the end of the
function and yields `None`. -/
def synchronized (obj : PyVal ε α) (w : World) : Option (SyncResult ε α) × World :=
  match obj.ty with
  | PyType.functionType => (some (SyncResult.func (synchronized_func obj.id obj.callFn)), w)
  | PyType.methodType => (some (SyncResult.method (synchronized_method obj.callMeth)), w)
  | PyType.instanceType =>
      let p := synchronized_object obj.id w
      (some (SyncResult.object p.1), p.2)
  | PyType.otherType => (none, w)

/-- `n` successive callers running `ObjectLock._get_lock(t)`; each execution
is atomic because the whole body holds the class-level registry lock, so any
concurrent schedule of `n` racers is some sequential order of these steps.
Returns the lock each caller received and the final world. -/
def getLockCalls (t : Target) : Nat → World → List LockId × World
  | 0, w => ([], w)
  | n + 1, w =>
      let p := ObjectLock._get_lock t w
      let q := getLockCalls t n p.2
      (p.1 :: q.1, q.2)

/-! ### Python 2 attribute-assignment semantics, made explicit

`World.attr` above models the `__ObjectLock__` slot as assignable for every
identity, which is faithful for function objects and (old-style) instances —
the only identities the module's own code paths hand to `_get_lock`: the
wrappers lock on the function object or on the receiver instance.  A bare
Python 2 bound method (`instancemethod`), however, forwards attribute *reads*
to its underlying function `im_func` while attribute *assignment* on it
raises `AttributeError`.  The refinement below makes that error path
explicit, for the claims about the layer raising errors of its own. -/

/-- What a target identity is, as far as Python 2 attribute assignment
cares: a function object or a plain (old-style) instance accepts attribute
assignment; a bound method forwards reads to its underlying function
`im_func` and raises `AttributeError` on assignment. -/
inductive TargetObj where
  | function
  | instanceObj
  | boundMethod (im_func : Target)
deriving DecidableEq, Repr

/-- The only error the layer's own code can produce: Python 2's
`AttributeError` from `setattr` on a bound method. -/
inductive PyError where
  | attributeError
deriving DecidableEq, Repr

/-- `hasattr`/`getattr` of the `__ObjectLock__` slot under an environment
`env` describing each identity: a read on a bound method forwards to its
underlying function's slot. -/
def readSlot (env : Target → TargetObj) (w : World) (obj : Target) : Option LockId :=
  match env obj with
  | TargetObj.boundMethod f => w.attr f
  | _ => w.attr obj

/-- `setattr` of the `__ObjectLock__` slot: raises `AttributeError` on a
bound method, updates the target's own slot otherwise. -/
def setSlot (env : Target → TargetObj) (w : World) (obj : Target) (l : LockId) :
    Except PyError World :=
  match env obj with
  | TargetObj.boundMethod _ => Except.error PyError.attributeError
  | _ => Except.ok { w with attr := fun t => if t = obj then some l else w.attr t }

/-- `ObjectLock._get_lock(obj)` with the attribute semantics explicit:
`if not hasattr(obj, '__ObjectLock__'): setattr(obj, '__ObjectLock__', RLock())`
then `return getattr(obj, '__ObjectLock__')`.  On an attribute-assignable
target this refines `ObjectLock._get_lock`; on a bare bound method whose
underlying function has no attached lock, the `setattr` raises and the
`AttributeError` escapes the layer. -/
def ObjectLock._get_lock_py (env : Target → TargetObj) (obj : Target) (w : World) :
    Except PyError (LockId × World) :=
  match readSlot env w obj with
  | some l => Except.ok (l, w)
  | none =>
      match setSlot env w obj w.nextLock with
      | Except.error e => Except.error e
      | Except.ok w2 => Except.ok (w.nextLock, { w2 with nextLock := w.nextLock + 1 })

/-- `ObjectLock.__init__` under the explicit attribute semantics:
`self.lock = ObjectLock._get_lock(obj)`, which may raise. -/
def ObjectLock.construct_py (env : Target → TargetObj) (obj : Target) (w : World) :
    Except PyError (LockId × World) :=
  ObjectLock._get_lock_py env obj w

/-- An environment with one bare bound method: identity 0 is a bound method
whose underlying function is identity 1; every other identity is a function
object. -/
def demoEnv : Target → TargetObj :=
  fun t => if t = 0 then TargetObj.boundMethod 1 else TargetObj.function

/-- An environment of function objects only. -/
def allFnEnv : Target → TargetObj := fun _ => TargetObj.function

/-! ### Basic lemmas about the registry lookup and the lock mechanics -/

/-- Releasing right after a permitted acquire restores the lock exactly. -/
theorem RLock.release_acquire (tid : ThreadId) (lk : RLock)
    (hs : lk.Sane) (hc : lk.canAcquire tid) :
    (lk.acquire tid).release = lk := by
  obtain ⟨o, c⟩ := lk
  cases c with
  | zero =>
      have ho : o = none := hs.mpr rfl
      subst ho
      simp [RLock.acquire, RLock.release, RLock.init]
  | succ n =>
      have ho : o = some tid := by
        rcases hc with h | h
        · exact absurd (hs.mp h) (Nat.succ_ne_zero n)
        · exact h
      subst ho
      simp [RLock.acquire, RLock.release, Nat.succ_le_succ_iff]

/-- After `_get_lock obj`, the `__ObjectLock__` attribute of `obj` holds the
returned lock. -/
theorem getLock_attr_self (obj : Target) (w : World) :
    ((ObjectLock._get_lock obj w).2).attr obj = some (ObjectLock._get_lock obj w).1 := by
  unfold ObjectLock._get_lock
  cases h : w.attr obj with
  | some l => simpa using h
  | none => simp

/-- `_get_lock` never replaces an existing attachment, for any target. -/
theorem getLock_attr_preserve (obj t : Target) (l : LockId) (w : World)
    (h : w.attr t = some l) :
    ((ObjectLock._get_lock obj w).2).attr t = some l := by
  unfold ObjectLock._get_lock
  cases h2 : w.attr obj with
  | some l2 => simpa using h
  | none =>
      by_cases ht : t = obj
      · subst ht; rw [h] at h2; exact absurd h2 (by simp)
      · simpa [ht] using h

/-- `_get_lock` does not touch any lock state. -/
theorem getLock_locks (obj : Target) (w : World) :
    ((ObjectLock._get_lock obj w).2).locks = w.locks := by
  unfold ObjectLock._get_lock
  cases h : w.attr obj <;> simp

/-- On a previously-unseen target `_get_lock` returns the fresh lock id and
advances the allocator by one. -/
theorem getLock_fresh (obj : Target) (w : World) (h : w.attr obj = none) :
    (ObjectLock._get_lock obj w).1 = w.nextLock ∧
    ((ObjectLock._get_lock obj w).2).nextLock = w.nextLock + 1 := by
  unfold ObjectLock._get_lock
  rw [h]
  exact ⟨rfl, rfl⟩

/-- On an already-attached target `_get_lock` returns the stored lock and
leaves the world unchanged. -/
theorem getLock_seen (obj : Target) (l : LockId) (w : World) (h : w.attr obj = some l) :
    ObjectLock._get_lock obj w = (l, w) := by
  unfold ObjectLock._get_lock
  rw [h]

/-- `_get_lock` preserves well-formedness. -/
theorem getLock_WF (obj : Target) (w : World) (hw : w.WF) :
    ((ObjectLock._get_lock obj w).2).WF := by
  obtain ⟨hb, hinj, hfresh, hsane⟩ := hw
  unfold ObjectLock._get_lock
  cases h : w.attr obj with
  | some l => exact ⟨hb, hinj, hfresh, hsane⟩
  | none =>
      dsimp only
      refine ⟨?_, ?_, ?_, hsane⟩
      · intro t l1 h1
        dsimp only at h1
        by_cases ht : t = obj
        · rw [if_pos ht] at h1
          obtain rfl := Option.some.inj h1
          exact Nat.lt_succ_self _
        · rw [if_neg ht] at h1
          exact Nat.lt_succ_of_lt (hb t l1 h1)
      · intro t1 t2 l1 h1 h2
        dsimp only at h1 h2
        by_cases e1 : t1 = obj <;> by_cases e2 : t2 = obj
        · rw [e1, e2]
        · rw [if_pos e1] at h1
          rw [if_neg e2] at h2
          obtain rfl := Option.some.inj h1
          exact absurd (hb t2 _ h2) (lt_irrefl _)
        · rw [if_pos e2] at h2
          rw [if_neg e1] at h1
          obtain rfl := Option.some.inj h2
          exact absurd (hb t1 _ h1) (lt_irrefl _)
        · rw [if_neg e1] at h1
          rw [if_neg e2] at h2
          exact hinj t1 t2 l1 h1 h2
      · intro l1 hl1
        dsimp only at hl1 ⊢
        exact hfresh l1 (Nat.le_of_succ_le hl1)

/-- The initial world is well-formed. -/
theorem World.init_WF : World.init.WF := by
  refine ⟨?_, ?_, ?_, ?_⟩
  · intro t l h; exact absurd h (by simp [World.init])
  · intro t1 t2 l h1 h2; exact absurd h1 (by simp [World.init])
  · intro l _; rfl
  · intro l; simp [World.init, RLock.Sane, RLock.init]

/-- The outcome of a `with` block is exactly the body's outcome: the return
value or the re-raised exception, unchanged. -/
theorem withLock_fst (tid : ThreadId) (l : LockId) (body : Except ε α) (w : World) :
    (withLock tid l body w).1 = body := by
  cases body <;> rfl

/-- The world after a `with` block: acquire then release at the block's lock,
on the normal and on the exceptional path alike. -/
theorem withLock_snd (tid : ThreadId) (l : LockId) (body : Except ε α) (w : World) :
    (withLock tid l body w).2 = (w.acquireAt tid l).releaseAt l := by
  cases body <;> rfl

/-- Acquiring and then releasing at `l` restores every lock state, provided
the lock at `l` is sane and the caller may acquire it. -/
theorem acquire_release_locks (tid : ThreadId) (l : LockId) (w : World)
    (hs : (w.locks l).Sane) (hc : (w.locks l).canAcquire tid) :
    ((w.acquireAt tid l).releaseAt l).locks = w.locks := by
  funext l2
  by_cases h : l2 = l
  · subst h
    simp [World.acquireAt, World.releaseAt, RLock.release_acquire tid _ hs hc]
  · simp [World.acquireAt, World.releaseAt, h]

/-- `acquireAt` and `releaseAt` never touch the attribute map or the
allocator. -/
theorem acquire_release_attr (tid : ThreadId) (l : LockId) (w : World) :
    ((w.acquireAt tid l).releaseAt l).attr = w.attr ∧
    ((w.acquireAt tid l).releaseAt l).nextLock = w.nextLock :=
  ⟨rfl, rfl⟩

/-- A `with ObjectLock(obj):` block propagates the body's outcome unchanged. -/
theorem withObjectLock_fst (tid : ThreadId) (obj : Target) (body : Except ε α)
    (w : World) : (withObjectLock tid obj body w).1 = body := by
  cases body <;> rfl

/-- A `with ObjectLock(obj):` block preserves every existing target-to-lock
attachment. -/
theorem withObjectLock_attr_preserve (tid : ThreadId) (obj t : Target) (l : LockId)
    (body : Except ε α) (w : World) (h : w.attr t = some l) :
    ((withObjectLock tid obj body w).2).attr t = some l := by
  unfold withObjectLock
  rw [withLock_snd]
  show ((ObjectLock._get_lock obj w).2).attr t = some l
  exact getLock_attr_preserve obj t l w h

/-- After a `with ObjectLock(obj):` block its target carries the attribute. -/
theorem withObjectLock_attr_self (tid : ThreadId) (obj : Target)
    (body : Except ε α) (w : World) :
    ((withObjectLock tid obj body w).2).attr obj
      = some (ObjectLock.lockOf obj w) := by
  unfold withObjectLock
  rw [withLock_snd]
  show ((ObjectLock._get_lock obj w).2).attr obj = some (ObjectLock.lockOf obj w)
  exact getLock_attr_self obj w

/-- A `with ObjectLock(obj):` block restores every lock state, provided the
world is well-formed and the caller may acquire the resolved lock (free, or
re-entrantly held by the caller). -/
theorem withObjectLock_locks (tid : ThreadId) (obj : Target) (body : Except ε α)
    (w : World) (hw : w.WF)
    (hc : (w.locks (ObjectLock.lockOf obj w)).canAcquire tid) :
    ((withObjectLock tid obj body w).2).locks = w.locks := by
  unfold withObjectLock
  rw [withLock_snd]
  have hlocks : ((ObjectLock.construct obj w).2).locks = w.locks :=
    getLock_locks obj w
  have hs : (((ObjectLock.construct obj w).2).locks (ObjectLock.construct obj w).1).Sane := by
    rw [hlocks]; exact hw.2.2.2 _
  have hc2 : (((ObjectLock.construct obj w).2).locks (ObjectLock.construct obj w).1).canAcquire tid := by
    rw [hlocks]; exact hc
  rw [acquire_release_locks tid _ _ hs hc2, hlocks]

/-- Once the attribute is attached, any number of further `_get_lock` calls
return the stored lock and leave the world untouched. -/
theorem getLockCalls_seen (t : Target) (l : LockId) (n : Nat) (w : World)
    (h : w.attr t = some l) :
    getLockCalls t n w = (List.replicate n l, w) := by
  induction n with
  | zero => rfl
  | succ n ih =>
      unfold getLockCalls
      rw [getLock_seen t l w h]
      simp [ih, List.replicate_succ]

/-! ### The claims -/

/-- Claim C1: for every target `t`, repeated calls to the registry lookup
`ObjectLock._get_lock t` return the identical lock instance.  The first call
on a previously-unseen target creates a fresh lock and attaches it to `t`,
and every later call for the same `t` returns that same lock object and
leaves the world unchanged. -/
theorem getLock_repeated_identical (t : Target) (w : World) (h : w.attr t = none) :
    ((ObjectLock._get_lock t w).2).attr t = some (ObjectLock._get_lock t w).1
  ∧ (ObjectLock._get_lock t w).1 = w.nextLock
  ∧ ∀ n, getLockCalls t n ((ObjectLock._get_lock t w).2)
      = (List.replicate n (ObjectLock._get_lock t w).1, (ObjectLock._get_lock t w).2) := by
  refine ⟨getLock_attr_self t w, (getLock_fresh t w h).1, fun n => ?_⟩
  exact getLockCalls_seen t _ n _ (getLock_attr_self t w)

/-- Witness for C1: at target 0 in the initial world the first call attaches
lock 0 and later calls return it. -/
theorem getLock_repeated_identical_witness :
    World.init.attr 0 = none
  ∧ ((ObjectLock._get_lock 0 World.init).2).attr 0
      = some (ObjectLock._get_lock 0 World.init).1
  ∧ (ObjectLock._get_lock 0 World.init).1 = 0
  ∧ getLockCalls 0 2 ((ObjectLock._get_lock 0 World.init).2)
      = ([0, 0], (ObjectLock._get_lock 0 World.init).2) := by
  have h := getLock_repeated_identical 0 World.init rfl
  exact ⟨rfl, h.1, h.2.1, h.2.2 2⟩

/-- Claim C2: for every wrapped computation — `synchronized_func`,
`synchronized_method`, or the `ObjectLock` context manager — if the
computation raises an error, that error propagates unchanged to the caller,
and the target's lock is nevertheless released on the exceptional exit path:
afterwards every lock state is exactly as before the call. -/
theorem error_propagates_lock_released
    (tid : ThreadId) (fid self t : Target) (e : ε)
    (f : List Nat → Except ε α) (g : Target → List Nat → Except ε α)
    (b : Except ε α) (args : List Nat) (w : World)
    (hw : w.WF)
    (hf : f args = Except.error e) (hg : g self args = Except.error e)
    (hb : b = Except.error e)
    (hcf : (w.locks (ObjectLock.lockOf fid w)).canAcquire tid)
    (hcs : (w.locks (ObjectLock.lockOf self w)).canAcquire tid)
    (hct : (w.locks (ObjectLock.lockOf t w)).canAcquire tid) :
    (synchronized_func fid f tid args w).1 = Except.error e
  ∧ ((synchronized_func fid f tid args w).2).locks = w.locks
  ∧ (synchronized_method g tid self args w).1 = Except.error e
  ∧ ((synchronized_method g tid self args w).2).locks = w.locks
  ∧ (withObjectLock tid t b w).1 = Except.error e
  ∧ ((withObjectLock tid t b w).2).locks = w.locks := by
  refine ⟨?_, ?_, ?_, ?_, ?_, ?_⟩
  · exact (withObjectLock_fst tid fid (f args) w).trans hf
  · exact withObjectLock_locks tid fid (f args) w hw hcf
  · exact (withObjectLock_fst tid self (g self args) w).trans hg
  · exact withObjectLock_locks tid self (g self args) w hw hcs
  · exact (withObjectLock_fst tid t b w).trans hb
  · exact withObjectLock_locks tid t b w hw hct

/-- Witness for C2: a computation raising error 7 under each wrapper in the
initial world propagates the error, with all locks restored. -/
theorem error_propagates_lock_released_witness :
    (synchronized_func 0 (fun _ => (Except.error 7 : Except Nat Nat)) 0 [] World.init).1
      = Except.error 7
  ∧ (synchronized_method (fun _ _ => (Except.error 7 : Except Nat Nat)) 0 1 [] World.init).1
      = Except.error 7
  ∧ ((withObjectLock 0 2 (Except.error 7 : Except Nat Nat) World.init).2).locks
      = World.init.locks := by
  have h := error_propagates_lock_released 0 0 1 2 7
    (fun _ => (Except.error 7 : Except Nat Nat)) (fun _ _ => Except.error 7)
    (Except.error 7) [] World.init World.init_WF rfl rfl rfl
    (Or.inl rfl) (Or.inl rfl) (Or.inl rfl)
  exact ⟨h.1, h.2.2.1, h.2.2.2.2.2⟩

/-- Claim C3: `synchronized target` classifies the target by kind and
delegates to the matching wrapper: a `FunctionType` goes to
`synchronized_func`, a `MethodType` to `synchronized_method`, and an
`InstanceType` to `synchronized_object`. -/
theorem synchronized_dispatch (i : Target) (f : List Nat → Except ε α)
    (m : Target → List Nat → Except ε α) (w : World) :
    synchronized ⟨PyType.functionType, i, f, m⟩ w
        = (some (SyncResult.func (synchronized_func i f)), w)
  ∧ synchronized ⟨PyType.methodType, i, f, m⟩ w
        = (some (SyncResult.method (synchronized_method m)), w)
  ∧ synchronized ⟨PyType.instanceType, i, f, m⟩ w
        = (some (SyncResult.object (synchronized_object i w).1),
           (synchronized_object i w).2) :=
  ⟨rfl, rfl, rfl⟩

/-- Claim C4: distinct targets get distinct, independent lock instances —
`_get_lock t1` and then `_get_lock t2` never produce the same lock object
when `t1` and `t2` are distinct identities. -/
theorem distinct_targets_distinct_locks (t1 t2 : Target) (w : World)
    (hne : t1 ≠ t2) (hw : w.WF) :
    (ObjectLock._get_lock t1 w).1
      ≠ (ObjectLock._get_lock t2 ((ObjectLock._get_lock t1 w).2)).1 := by
  have h1 : ((ObjectLock._get_lock t1 w).2).attr t1
      = some (ObjectLock._get_lock t1 w).1 := getLock_attr_self t1 w
  obtain ⟨hb, hinj, _, _⟩ := getLock_WF t1 w hw
  cases h2 : ((ObjectLock._get_lock t1 w).2).attr t2 with
  | some l2 =>
      rw [getLock_seen t2 l2 _ h2]
      intro hEq
      exact hne (hinj t1 t2 _ h1 (by rw [hEq]; exact h2))
  | none =>
      rw [(getLock_fresh t2 _ h2).1]
      exact Nat.ne_of_lt (hb t1 _ h1)

/-- Witness for C4: targets 0 and 1 from the initial world receive locks 0
and 1 respectively — not the same lock. -/
theorem distinct_targets_distinct_locks_witness :
    (0 : Target) ≠ 1
  ∧ (ObjectLock._get_lock 0 World.init).1
      ≠ (ObjectLock._get_lock 1 ((ObjectLock._get_lock 0 World.init).2)).1 :=
  ⟨by decide, distinct_targets_distinct_locks 0 1 World.init (by decide) World.init_WF⟩

/-- Claim C5: for a target of an unrecognized kind, `synchronized` is a
silent no-op: it returns `None` (no wrapping), raises nothing, and leaves the
world untouched. -/
theorem synchronized_unrecognized_silent (i : Target) (f : List Nat → Except ε α)
    (m : Target → List Nat → Except ε α) (w : World) :
    synchronized ⟨PyType.otherType, i, f, m⟩ w = (none, w) := rfl

/-- Claim C6: each wrapper acquires the resolved lock, invokes the underlying
computation with the very arguments it received, releases the lock, and
returns the computation's own value unchanged — the call's outcome is exactly
`f args` (resp. `g self args`) and every lock state is restored. -/
theorem wrapper_invoke_release (tid : ThreadId) (fid self : Target)
    (f : List Nat → Except ε α) (g : Target → List Nat → Except ε α)
    (args : List Nat) (w : World) (hw : w.WF)
    (hcf : (w.locks (ObjectLock.lockOf fid w)).canAcquire tid)
    (hcs : (w.locks (ObjectLock.lockOf self w)).canAcquire tid) :
    (synchronized_func fid f tid args w).1 = f args
  ∧ ((synchronized_func fid f tid args w).2).locks = w.locks
  ∧ (synchronized_method g tid self args w).1 = g self args
  ∧ ((synchronized_method g tid self args w).2).locks = w.locks :=
  ⟨withObjectLock_fst tid fid (f args) w,
   withObjectLock_locks tid fid (f args) w hw hcf,
   withObjectLock_fst tid self (g self args) w,
   withObjectLock_locks tid self (g self args) w hw hcs⟩

/-- Witness for C6: concrete wrapped calls in the initial world return the
computation's value with all locks restored. -/
theorem wrapper_invoke_release_witness :
    (synchronized_func 0 (fun l => (Except.ok l.length : Except Nat Nat)) 5 [1, 2] World.init).1
      = Except.ok 2
  ∧ ((synchronized_method (fun s l => (Except.ok (s + l.length) : Except Nat Nat)) 5 3 [1, 2] World.init).2).locks
      = World.init.locks := by
  have h := wrapper_invoke_release 5 0 3
    (fun l => (Except.ok l.length : Except Nat Nat))
    (fun s l => (Except.ok (s + l.length) : Except Nat Nat))
    [1, 2] World.init World.init_WF (Or.inl rfl) (Or.inl rfl)
  exact ⟨h.1, h.2.2.2⟩

/-- Claim C7: once a lock is attached to a target identity it is never
replaced — every operation of the system (`_get_lock` for any target,
`ObjectLock` construction, `synchronized_object`, wrapped `synchronized_func`
and `synchronized_method` invocations, and `with ObjectLock(_)` blocks)
preserves the existing target-to-lock association.  `World.attr` being a map,
at most one lock is associated with a target at any time. -/
theorem association_never_replaced (t t2 fid self : Target) (l : LockId)
    (tid : ThreadId) (f : List Nat → Except ε α) (g : Target → List Nat → Except ε α)
    (b : Except ε α) (args : List Nat) (w : World)
    (h : w.attr t = some l) :
    ((ObjectLock._get_lock t2 w).2).attr t = some l
  ∧ ((ObjectLock.construct t2 w).2).attr t = some l
  ∧ ((synchronized_object t2 w).2).attr t = some l
  ∧ ((synchronized_func fid f tid args w).2).attr t = some l
  ∧ ((synchronized_method g tid self args w).2).attr t = some l
  ∧ ((withObjectLock tid t2 b w).2).attr t = some l :=
  ⟨getLock_attr_preserve t2 t l w h,
   getLock_attr_preserve t2 t l w h,
   getLock_attr_preserve t2 t l w h,
   withObjectLock_attr_preserve tid fid t l (f args) w h,
   withObjectLock_attr_preserve tid self t l (g self args) w h,
   withObjectLock_attr_preserve tid t2 t l b w h⟩

/-- Witness for C7: after the initial world attaches lock 0 to target 0,
a lookup for target 1 and a wrapped call both leave the association intact. -/
theorem association_never_replaced_witness :
    ((ObjectLock._get_lock 0 World.init).2).attr 0 = some 0
  ∧ ((ObjectLock._get_lock 1 ((ObjectLock._get_lock 0 World.init).2)).2).attr 0 = some 0
  ∧ ((synchronized_func 2 (fun _ => (Except.ok 0 : Except Nat Nat)) 0 []
        ((ObjectLock._get_lock 0 World.init).2)).2).attr 0 = some 0 := by
  have h0 : ((ObjectLock._get_lock 0 World.init).2).attr 0 = some 0 := rfl
  have h := association_never_replaced 0 1 2 3 0 0
    (fun _ => (Except.ok 0 : Except Nat Nat)) (fun _ _ => Except.ok 0) (Except.ok 0)
    [] ((ObjectLock._get_lock 0 World.init).2) h0
  exact ⟨h0, h.1, h.2.2.2.1⟩

/-- Counterexample to claim C8 as stated: the claim enumerates bound methods
among the accepted targets, but constructing `ObjectLock` on a bare bound
method (identity 0, underlying function 1) in the initial world raises the
layer's own `AttributeError` — Python 2 `setattr` on an `instancemethod`
fails.  So the layer does manufacture an error of its own for one of the
enumerated target kinds. -/
theorem layer_raises_on_bound_method :
    ObjectLock.construct_py demoEnv 0 World.init
      = Except.error PyError.attributeError := rfl

/-- Claim C8, amended: for every attribute-assignable target — any function
object or plain instance, which are also the only identities the module's own
code paths ever hand to `_get_lock` (the wrappers lock on the function object
or on the receiver instance, never on a bare bound method) — the
synchronization layer never raises an error of its own: `ObjectLock`
construction succeeds, returning the attached lock, and every wrapper's
observable outcome is exactly the wrapped computation's own.  A bare bound
method passed directly is the exception the counterexample exhibits. -/
theorem layer_transparent_amended (env : Target → TargetObj)
    (t fid self : Target) (tid : ThreadId)
    (f : List Nat → Except ε α) (g : Target → List Nat → Except ε α)
    (b : Except ε α) (args : List Nat) (w : World)
    (ht : ∀ fn, env t ≠ TargetObj.boundMethod fn) :
    ObjectLock.construct_py env t w = Except.ok (ObjectLock.construct t w)
  ∧ ((ObjectLock.construct t w).2).attr t = some (ObjectLock.construct t w).1
  ∧ (synchronized_func fid f tid args w).1 = f args
  ∧ (synchronized_method g tid self args w).1 = g self args
  ∧ (withObjectLock tid t b w).1 = b := by
  refine ⟨?_, getLock_attr_self t w, withObjectLock_fst tid fid (f args) w,
    withObjectLock_fst tid self (g self args) w, withObjectLock_fst tid t b w⟩
  show ObjectLock._get_lock_py env t w = Except.ok (ObjectLock._get_lock t w)
  cases henv : env t with
  | boundMethod fn => exact absurd henv (ht fn)
  | function =>
      cases h : w.attr t with
      | some l =>
          simp [ObjectLock._get_lock_py, ObjectLock._get_lock, readSlot, setSlot, henv, h]
      | none =>
          simp [ObjectLock._get_lock_py, ObjectLock._get_lock, readSlot, setSlot, henv, h]
  | instanceObj =>
      cases h : w.attr t with
      | some l =>
          simp [ObjectLock._get_lock_py, ObjectLock._get_lock, readSlot, setSlot, henv, h]
      | none =>
          simp [ObjectLock._get_lock_py, ObjectLock._get_lock, readSlot, setSlot, henv, h]

/-- Witness for amended C8: a function target (identity 0) in the initial
world — construction succeeds with the very lock the total model attaches,
and a wrapped call returns the computation's own value. -/
theorem layer_transparent_amended_witness :
    ObjectLock.construct_py allFnEnv 0 World.init
      = Except.ok (ObjectLock.construct 0 World.init)
  ∧ (synchronized_func 1 (fun _ => (Except.ok 4 : Except Nat Nat)) 0 [] World.init).1
      = Except.ok 4 := by
  have h := layer_transparent_amended allFnEnv 0 1 2 0
    (fun _ => (Except.ok 4 : Except Nat Nat)) (fun _ _ => Except.ok 4) (Except.ok 4)
    [] World.init (by intro fn h2; simp [allFnEnv] at h2)
  exact ⟨h.1, h.2.2.1⟩

/-- Claim C9: `n ≥ 1` callers racing on a previously-unseen target — each
`_get_lock` body atomic under the class-level registry lock, so any schedule
is a sequential order of the `n` executions — create exactly one lock (the
allocator advances exactly once) and all `n` callers receive that same
instance. -/
theorem racing_callers_single_lock (t : Target) (n : Nat) (w : World)
    (hn : 0 < n) (h : w.attr t = none) :
    (getLockCalls t n w).1 = List.replicate n w.nextLock
  ∧ ((getLockCalls t n w).2).nextLock = w.nextLock + 1
  ∧ ((getLockCalls t n w).2).attr t = some w.nextLock := by
  obtain ⟨m, rfl⟩ : ∃ m, n = m + 1 := ⟨n - 1, (Nat.succ_pred_eq_of_pos hn).symm⟩
  have hp1 : (ObjectLock._get_lock t w).1 = w.nextLock := (getLock_fresh t w h).1
  have hattr : ((ObjectLock._get_lock t w).2).attr t
      = some (ObjectLock._get_lock t w).1 := getLock_attr_self t w
  have hrest := getLockCalls_seen t (ObjectLock._get_lock t w).1 m
      ((ObjectLock._get_lock t w).2) hattr
  have hunf : getLockCalls t (m + 1) w
      = ((ObjectLock._get_lock t w).1 :: (getLockCalls t m ((ObjectLock._get_lock t w).2)).1,
         (getLockCalls t m ((ObjectLock._get_lock t w).2)).2) := rfl
  rw [hunf, hrest]
  refine ⟨?_, ?_, ?_⟩
  · rw [hp1, List.replicate_succ]
  · exact (getLock_fresh t w h).2
  · rw [hattr, hp1]

/-- Witness for C9: three callers racing on target 0 in the initial world all
receive lock 0 and the allocator advances to 1. -/
theorem racing_callers_single_lock_witness :
    (getLockCalls 0 3 World.init).1 = [0, 0, 0]
  ∧ ((getLockCalls 0 3 World.init).2).nextLock = 1
  ∧ ((getLockCalls 0 3 World.init).2).attr 0 = some 0 := by
  have h := racing_callers_single_lock 0 3 World.init (by decide) rfl
  exact ⟨h.1, h.2.1, h.2.2⟩

/-- Claim C10: a def decorated with `@synchronized` inside a class body is a
plain function (not yet a bound method) at decoration time, so `synchronized`
takes the `FunctionType` branch and wraps it with `synchronized_func`; the
lock key of the wrapped method is the function object itself — the lock a call
acquires is `lockOf fooId`, independent of the receiver passed as first
argument, and it is the same single lock across successive calls on any
receivers. -/
theorem class_body_decoration_single_lock (fooId : Target)
    (impl : List Nat → Except ε α) (m : Target → List Nat → Except ε α)
    (w wc : World) (tid : ThreadId) (self : Target) (args : List Nat) :
    (synchronized ⟨PyType.functionType, fooId, impl, m⟩ w).1
        = some (SyncResult.func (synchronized_func fooId impl))
  ∧ synchronized_func fooId impl tid (self :: args) wc
        = withLock tid (ObjectLock.lockOf fooId wc) (impl (self :: args))
            ((ObjectLock._get_lock fooId wc).2)
  ∧ ObjectLock.lockOf fooId
        ((synchronized_func fooId impl tid (self :: args) wc).2)
      = ObjectLock.lockOf fooId wc := by
  refine ⟨rfl, rfl, ?_⟩
  have hattr : ((synchronized_func fooId impl tid (self :: args) wc).2).attr fooId
      = some (ObjectLock.lockOf fooId wc) :=
    withObjectLock_attr_self tid fooId (impl (self :: args)) wc
  show (ObjectLock._get_lock fooId
      ((synchronized_func fooId impl tid (self :: args) wc).2)).1
    = ObjectLock.lockOf fooId wc
  rw [getLock_seen fooId (ObjectLock.lockOf fooId wc) _ hattr]
